import Mathlib

/-!
Verification of the aggregation-and-reporting pipeline of ai_reporter.py
(FDA device recall reporter).

The script is embedded shallowly:

* a JSON recall record becomes `Record`; every used field is an
  `Option String`, where `none` models the key being absent from the JSON
  object of the record (pandas fills `NaN` for such cells);
* `pd.DataFrame(data["results"])` has a column for a field name exactly when
  some record carries that key; this is `colPresent`;
* `groupby(col).size().reset_index(name="count")` sorts the distinct non-null
  keys ascending (pandas default sort=True) and drops null keys (pandas
  default dropna=True); this is `groupSize`, built from `gkeys`;
* `sort_values(...)` is modelled as a stable sort (`List.insertionSort`),
  matching the stable-sort reading of the spec; string comparison is the
  Python code-point lexicographic order, embedded as the structural boolean
  `lexLt` on the character lists (Mathlib iterator-based `String` order is
  not used because it does not reduce in the kernel);
* `groupby` on a column name that the frame does not have raises `KeyError`
  in pandas, so the aggregation step is `Except`-valued (`aggregate`);
* the surrounding script (credential checks, the FDA GET, the OpenAI POST,
  the final file write) becomes `runPipeline`, which also returns the list
  of externally visible events (network calls, file write) in order.
-/

namespace AiReporter

/-- One recall record as parsed from the FDA JSON payload.  Every field of
interest is `Option String`; `none` models the key being absent from the
JSON object of this record. -/
structure Record where
  recall_number : Option String := none
  event_date_initiated : Option String := none
  product_code : Option String := none
  root_cause_description : Option String := none
  recalling_firm : Option String := none
  recall_status : Option String := none
  product_description : Option String := none
deriving DecidableEq

/-- Python slice s[:n]: the first n code points of a string. -/
def pyTake (s : String) (n : Nat) : String := ⟨s.data.take n⟩

/-- Python string comparison a < b: code-point lexicographic order on the
character sequences, written structurally so the kernel can evaluate it. -/
def lexLt : List Char → List Char → Bool
  | _, [] => false
  | [], _ :: _ => true
  | a :: as, b :: bs => decide (a < b) || (a == b && lexLt as bs)

/-- Python a < b on strings. -/
def strLt (a b : String) : Bool := lexLt a.data b.data

/-- Python a <= b on strings (total order: not b < a). -/
def strLe (a b : String) : Bool := !(lexLt b.data a.data)

/-- A DataFrame built by pd.DataFrame from a list of JSON objects has a
column for a field exactly when at least one record carries the key. -/
def colPresent (rs : List Record) (f : Record → Option String) : Bool :=
  rs.any fun r => (f r).isSome

/-- The month column: event_date_initiated .str[:7]; a null cell stays
null under the .str accessor. -/
def monthOf (r : Record) : Option String :=
  r.event_date_initiated.map fun s => pyTake s 7

/-- Ordering used by sort_values("count", ascending=False). -/
def countGE (a b : String × Nat) : Prop := b.2 ≤ a.2

instance : DecidableRel countGE := fun a b => inferInstanceAs (Decidable (b.2 ≤ a.2))

/-- Ascending key order on table rows, for sort_values("month"). -/
def keyLE (a b : String × Nat) : Prop := strLe a.1 b.1 = true

instance : DecidableRel keyLE := fun a b => inferInstanceAs (Decidable (strLe a.1 b.1 = true))

/-- Strict ascending key order on table rows. -/
def keyLT (a b : String × Nat) : Prop := strLt a.1 b.1 = true

/-- Ascending string order as a Prop, for sorting the group keys. -/
def strLeP (a b : String) : Prop := strLe a b = true

instance : DecidableRel strLeP := fun a b => inferInstanceAs (Decidable (strLe a b = true))

/-- The distinct non-null keys of a grouped column, sorted ascending: the
index that pandas groupby(col, sort=True, dropna=True) produces. -/
def gkeys (vals : List String) : List String :=
  List.insertionSort strLeP vals.dedup

/-- groupby(col).size().reset_index(name="count"): one row per distinct
non-null key, ascending by key, carrying the multiplicity of the key. -/
def groupSize (vals : List String) : List (String × Nat) :=
  (gkeys vals).map fun k => (k, vals.count k)

/-- sort_values("count", ascending=False), modelled as a stable sort. -/
def sortCountDesc (t : List (String × Nat)) : List (String × Nat) :=
  List.insertionSort countGE t

/-- sort_values("month") ascending, modelled as a stable sort. -/
def sortKeyAsc (t : List (String × Nat)) : List (String × Nat) :=
  List.insertionSort keyLE t

/-- The description cell of one sample row, after
row.get("product_description", "N/A") and the truncation branch.
If the column was dropped (absent from every record) the default "N/A" is
returned; if the column exists but the cell is null, the cell is the float
NaN, the isinstance(desc, str) guard fails, and the f-string renders "nan";
a string longer than 200 code points is cut to 200 and "..." appended. -/
def sampleDesc (descCol : Bool) (v : Option String) : String :=
  if descCol then
    match v with
    | none => "nan"
    | some s => if s.length > 200 then pyTake s 200 ++ "..." else s
  else "N/A"

/-- One bullet line of the SAMPLE PRODUCT DESCRIPTIONS section. -/
def sampleLine (descCol : Bool) (v : Option String) : String :=
  "- " ++ sampleDesc descCol v ++ "\n"

/-- The values the script derives from recalls_clean: the four aggregate
tables, the total used by the Total Recalls line, and the rendered sample
lines of the first five records. -/
structure Tables where
  root_cause_counts : List (String × Nat)
  monthly_counts : List (String × Nat)
  firm_counts : List (String × Nat)
  status_counts : List (String × Nat)
  total : Nat
  samples : List String
deriving DecidableEq

/-- The error taxonomy of the run, following the spec names:
MissingCredential for the startup ValueError, SourceUnavailable for the
non-200 FDA response, keyError for a pandas or dict KeyError, and
GenerationFailed for raise_for_status or a payload without the completion
field. -/
inductive PipeErr where
  | missingCredential
  | sourceUnavailable (status : Nat)
  | keyError (key : String)
  | generationFailed
deriving DecidableEq

/-- The tables the success path of section 2 of the script builds. -/
def mkTables (rs : List Record) : Tables where
  root_cause_counts :=
    (sortCountDesc (groupSize (rs.filterMap fun r => r.root_cause_description))).take 10
  monthly_counts := sortKeyAsc (groupSize (rs.filterMap monthOf))
  firm_counts :=
    (sortCountDesc (groupSize (rs.filterMap fun r => r.recalling_firm))).take 10
  status_counts := sortCountDesc (groupSize (rs.filterMap fun r => r.recall_status))
  total := rs.length
  samples := (rs.take 5).map fun r =>
    sampleLine (colPresent rs fun x => x.product_description) r.product_description

/-- Section 2 of the script.  Grouping by a column the frame does not have
raises KeyError in pandas; the failure points come in the order the script
reaches them: the root-cause groupby, the month derivation from
event_date_initiated, the firm groupby, the status groupby. -/
def aggregate (rs : List Record) : Except PipeErr Tables :=
  if colPresent rs (fun r => r.root_cause_description) = false then
    .error (.keyError "root_cause_description")
  else if colPresent rs (fun r => r.event_date_initiated) = false then
    .error (.keyError "event_date_initiated")
  else if colPresent rs (fun r => r.recalling_firm) = false then
    .error (.keyError "recalling_firm")
  else if colPresent rs (fun r => r.recall_status) = false then
    .error (.keyError "recall_status")
  else
    .ok (mkTables rs)

/-- The FDA response as the script sees it: the HTTP status code and, when
the body parses, the optional results array. -/
structure FetchResponse where
  status_code : Nat
  results : Option (List Record)
deriving DecidableEq

/-- The OpenAI response as the script sees it: whether raise_for_status
passes, and the content of choices[0].message when the payload has it. -/
structure GenResponse where
  ok : Bool
  content : Option String
deriving DecidableEq

/-- Externally visible actions of one run, in order. -/
inductive Event where
  | fdaCall
  | openaiCall
  | fileWrite (text : String)
deriving DecidableEq

/-- Python truthiness test applied to os.getenv: the check fails when the
variable is unset (None) or holds the empty string. -/
def credOk : Option String → Bool
  | none => false
  | some s => !s.isEmpty

/-- The whole script run: credential checks, the FDA GET, the status check,
extraction of data["results"], aggregation, the OpenAI POST, the payload
check, and the final file write.  Returns the outcome together with the
ordered list of externally visible events. -/
def runPipeline (fdaKey openaiKey : Option String) (resp : FetchResponse)
    (gen : GenResponse) : Except PipeErr String × List Event :=
  if credOk fdaKey = false then (.error .missingCredential, [])
  else if credOk openaiKey = false then (.error .missingCredential, [])
  else if resp.status_code ≠ 200 then
    (.error (.sourceUnavailable resp.status_code), [.fdaCall])
  else
    match resp.results with
    | none => (.error (.keyError "results"), [.fdaCall])
    | some rs =>
      match aggregate rs with
      | .error e => (.error e, [.fdaCall])
      | .ok _ =>
        if gen.ok = false then (.error .generationFailed, [.fdaCall, .openaiCall])
        else
          match gen.content with
          | none => (.error .generationFailed, [.fdaCall, .openaiCall])
          | some rep => (.ok rep, [.fdaCall, .openaiCall, .fileWrite rep])

/-- Descending count with ascending key as tie-break: the order the tables
actually carry. -/
def lexDesc (a b : String × Nat) : Prop :=
  b.2 < a.2 ∨ (a.2 = b.2 ∧ strLt a.1 b.1 = true)

/-- The number of input records whose field equals the given key. -/
def fieldCount (rs : List Record) (f : Record → Option String) (k : String) : Nat :=
  rs.countP fun r => decide (f r = some k)

/-! Concrete inputs used by the witnesses and counterexamples. -/

/-- A fully populated record. -/
def rA : Record where
  recall_number := some "Z-0001-2024"
  event_date_initiated := some "2024-01-15"
  product_code := some "ABC"
  root_cause_description := some "Software Error"
  recalling_firm := some "Acme Devices"
  recall_status := some "Ongoing"
  product_description := some "Widget"

/-- A record without a product_description key. -/
def rB : Record where
  event_date_initiated := some "2024-02-20"
  root_cause_description := some "Device Design"
  recalling_firm := some "Acme Devices"
  recall_status := some "Ongoing"

/-- A record without a recall_status key. -/
def rC : Record where
  event_date_initiated := some "2024-03-05"
  root_cause_description := some "Device Design"
  recalling_firm := some "Beta Corp"
  product_description := some "Gadget"

/-- A record without a root_cause_description key. -/
def recNoRoot : Record where
  event_date_initiated := some "2024-02-02"
  recalling_firm := some "Acme Devices"
  recall_status := some "Ongoing"
  product_description := some "Thing"

/-- A record without a recalling_firm key. -/
def recNoFirm : Record where
  event_date_initiated := some "2024-02-02"
  root_cause_description := some "Software Error"
  recall_status := some "Ongoing"

/-- Root cause "B", full record otherwise. -/
def recRootB : Record where
  event_date_initiated := some "2024-01-10"
  root_cause_description := some "B"
  recalling_firm := some "FirmOne"
  recall_status := some "Ongoing"
  product_description := some "P1"

/-- Root cause "A", full record otherwise. -/
def recRootA : Record where
  event_date_initiated := some "2024-01-11"
  root_cause_description := some "A"
  recalling_firm := some "FirmTwo"
  recall_status := some "Terminated"
  product_description := some "P2"

/-- A 201-character description, used to exercise the truncation branch. -/
def sLong : String := ⟨List.replicate 201 'a'⟩

/-! Order lemmas for the embedded Python string comparison. -/

/-- The boolean comparison agrees with the Mathlib lexicographic order on
character lists. -/
theorem lexLt_iff (as : List Char) : ∀ bs, lexLt as bs = true ↔ List.Lex (· < ·) as bs := by
  induction as with
  | nil =>
    intro bs
    cases bs with
    | nil => exact iff_of_false (by simp [lexLt]) (fun h => by cases h)
    | cons b bs => exact iff_of_true rfl List.Lex.nil
  | cons a as ih =>
    intro bs
    cases bs with
    | nil => exact iff_of_false (by simp [lexLt]) (fun h => by cases h)
    | cons b bs =>
      simp only [lexLt, Bool.or_eq_true, decide_eq_true_eq, Bool.and_eq_true, beq_iff_eq]
      constructor
      · rintro (h | ⟨rfl, h⟩)
        · exact List.Lex.rel h
        · exact List.Lex.cons ((ih bs).1 h)
      · intro h
        cases h with
        | cons h => exact Or.inr ⟨rfl, (ih bs).2 h⟩
        | rel h => exact Or.inl h

theorem strLt_iff (a b : String) : strLt a b = true ↔ List.Lex (· < ·) a.data b.data :=
  lexLt_iff a.data b.data

theorem strLe_iff (a b : String) : strLe a b = true ↔ ¬ List.Lex (· < ·) b.data a.data := by
  simp [strLe, ← lexLt_iff]

theorem data_inj {a b : String} (h : a.data = b.data) : a = b := by
  cases a
  cases b
  cases h
  rfl

/-- Trichotomy for the lexicographic order, read off the Mathlib linear
order on character lists. -/
theorem clex_trichotomy (a b : List Char) :
    List.Lex (· < ·) a b ∨ a = b ∨ List.Lex (· < ·) b a :=
  lt_trichotomy a b

theorem clex_asymm {a b : List Char} (h : List.Lex (· < ·) a b) :
    ¬ List.Lex (· < ·) b a := by
  have h1 : a < b := h
  have h2 : ¬ b < a := lt_asymm h1
  intro h3
  exact h2 h3

theorem clex_trans {a b c : List Char} (h1 : List.Lex (· < ·) a b)
    (h2 : List.Lex (· < ·) b c) : List.Lex (· < ·) a c := by
  have g1 : a < b := h1
  have g2 : b < c := h2
  exact lt_trans g1 g2

theorem clex_irrefl (a : List Char) : ¬ List.Lex (· < ·) a a := by
  intro h
  have g : a < a := h
  exact lt_irrefl a g

instance : IsTotal String strLeP := by
  constructor
  intro a b
  rw [strLeP, strLeP, strLe_iff, strLe_iff]
  rcases clex_trichotomy a.data b.data with h | h | h
  · exact Or.inl (clex_asymm h)
  · exact Or.inl (by rw [h]; exact clex_irrefl b.data)
  · exact Or.inr (clex_asymm h)

instance : IsTrans String strLeP := by
  constructor
  intro a b c hab hbc
  rw [strLeP, strLe_iff] at hab hbc ⊢
  intro hca
  rcases clex_trichotomy c.data b.data with h | h | h
  · exact hbc h
  · exact hab (h ▸ hca)
  · exact hab (clex_trans h hca)

theorem strLt_of_le_ne {a b : String} (h1 : strLeP a b) (h2 : a ≠ b) : strLt a b = true := by
  rw [strLeP, strLe_iff] at h1
  rw [strLt_iff]
  rcases clex_trichotomy a.data b.data with h | h | h
  · exact h
  · exact absurd (data_inj h) h2
  · exact absurd h h1

theorem strLt_imp_le {a b : String} (h : strLt a b = true) : strLe a b = true := by
  rw [strLt_iff] at h
  rw [strLe_iff]
  exact clex_asymm h

/-! Properties of the grouped tables. -/

theorem mem_gkeys {vals : List String} {k : String} : k ∈ gkeys vals ↔ k ∈ vals := by
  unfold gkeys
  rw [List.mem_insertionSort, List.mem_dedup]

theorem nodup_gkeys (vals : List String) : (gkeys vals).Nodup :=
  ((List.perm_insertionSort strLeP vals.dedup).nodup_iff).2 (List.nodup_dedup vals)

theorem pairwise_lt_gkeys (vals : List String) :
    (gkeys vals).Pairwise fun a b => strLt a b = true := by
  have h1 : (gkeys vals).Pairwise strLeP := List.sorted_insertionSort strLeP vals.dedup
  have h2 : (gkeys vals).Pairwise (· ≠ ·) := nodup_gkeys vals
  exact h1.imp₂ (fun _ _ hle hne => strLt_of_le_ne hle hne) h2

theorem pairwise_keyLT_groupSize (vals : List String) :
    (groupSize vals).Pairwise keyLT := by
  unfold groupSize
  rw [List.pairwise_map]
  exact pairwise_lt_gkeys vals

theorem groupSize_mem {vals : List String} {k : String} {c : Nat}
    (h : (k, c) ∈ groupSize vals) : k ∈ vals ∧ c = vals.count k := by
  unfold groupSize at h
  obtain ⟨k2, hk2, he⟩ := List.mem_map.1 h
  cases he
  exact ⟨mem_gkeys.1 hk2, rfl⟩

theorem groupSize_complete {vals : List String} {k : String} (h : k ∈ vals) :
    (k, vals.count k) ∈ groupSize vals :=
  List.mem_map.2 ⟨k, mem_gkeys.2 h, rfl⟩

theorem keyLT_imp_keyLE {a b : String × Nat} (h : keyLT a b) : keyLE a b :=
  strLt_imp_le h

/-- sort_values("month") leaves the groupby output unchanged: the group
keys are already ascending. -/
theorem sortKeyAsc_groupSize (vals : List String) :
    sortKeyAsc (groupSize vals) = groupSize vals :=
  List.Sorted.insertionSort_eq
    ((pairwise_keyLT_groupSize vals).imp fun h => keyLT_imp_keyLE h)

/-- Inserting a row whose key is strictly below every present key keeps the
table sorted by descending count with ascending key as tie-break. -/
theorem pairwise_lexDesc_orderedInsert (x : String × Nat) :
    ∀ ys : List (String × Nat), ys.Pairwise lexDesc → (∀ y ∈ ys, keyLT x y) →
      (List.orderedInsert countGE x ys).Pairwise lexDesc
  | [], _, _ => List.pairwise_singleton lexDesc x
  | y :: ys, hp, hk => by
    rw [List.orderedInsert]
    by_cases hr : countGE x y
    · rw [if_pos hr]
      have hxy : lexDesc x y := by
        rcases Nat.lt_or_ge y.2 x.2 with h | h
        · exact Or.inl h
        · exact Or.inr ⟨Nat.le_antisymm h hr, hk y (List.mem_cons_self y ys)⟩
      refine List.Pairwise.cons ?_ hp
      intro z hz
      rcases List.mem_cons.1 hz with rfl | hz2
      · exact hxy
      · have hyz : lexDesc y z := (List.pairwise_cons.1 hp).1 z hz2
        rcases hyz with h1 | ⟨h1, _⟩
        · exact Or.inl (Nat.lt_of_lt_of_le h1 hr)
        · rcases Nat.lt_or_ge y.2 x.2 with h2 | h2
          · exact Or.inl (h1 ▸ h2)
          · exact Or.inr ⟨(Nat.le_antisymm h2 hr).trans h1,
              hk z (List.mem_cons_of_mem y hz2)⟩
    · rw [if_neg hr]
      have hins := pairwise_lexDesc_orderedInsert x ys (List.pairwise_cons.1 hp).2
        (fun y2 hy2 => hk y2 (List.mem_cons_of_mem y hy2))
      refine List.Pairwise.cons ?_ hins
      intro w hw
      rcases (List.mem_orderedInsert countGE).1 hw with rfl | hw2
      · exact Or.inl (Nat.lt_of_not_le hr)
      · exact (List.pairwise_cons.1 hp).1 w hw2

/-- The stable count sort of a table whose keys ascend yields descending
counts with ascending key as tie-break. -/
theorem pairwise_lexDesc_insertionSort :
    ∀ l : List (String × Nat), l.Pairwise keyLT →
      (List.insertionSort countGE l).Pairwise lexDesc
  | [], _ => List.Pairwise.nil
  | x :: xs, hp => by
    rw [List.insertionSort]
    refine pairwise_lexDesc_orderedInsert x _
      (pairwise_lexDesc_insertionSort xs (List.pairwise_cons.1 hp).2) ?_
    intro y hy
    exact (List.pairwise_cons.1 hp).1 y ((List.mem_insertionSort countGE).1 hy)

theorem pairwise_lexDesc_sortCountDesc (vals : List String) :
    (sortCountDesc (groupSize vals)).Pairwise lexDesc :=
  pairwise_lexDesc_insertionSort (groupSize vals) (pairwise_keyLT_groupSize vals)

theorem lexDesc_imp_countGE {a b : String × Nat} (h : lexDesc a b) : b.2 ≤ a.2 := by
  rcases h with h | ⟨h, _⟩
  · exact Nat.le_of_lt h
  · exact Nat.le_of_eq h.symm

/-- The counts of a grouped table sum to the number of non-null cells. -/
theorem sum_groupSize (vals : List String) :
    ((groupSize vals).map fun e => e.2).sum = vals.length := by
  unfold groupSize gkeys
  rw [List.map_map]
  have hp := (List.perm_insertionSort strLeP vals.dedup).map
    ((fun e : String × Nat => e.2) ∘ fun k => (k, vals.count k))
  rw [hp.sum_eq]
  simpa [Function.comp] using List.sum_map_count_dedup_eq_length vals

theorem sum_sortCountDesc (t : List (String × Nat)) :
    ((sortCountDesc t).map fun e => e.2).sum = (t.map fun e => e.2).sum :=
  ((List.perm_insertionSort countGE t).map fun e => e.2).sum_eq

/-- Multiplicity in the projected column equals the number of records whose
field holds the key. -/
theorem count_filterMap (rs : List Record) (f : Record → Option String) (k : String) :
    (rs.filterMap f).count k = fieldCount rs f k := by
  unfold fieldCount
  induction rs with
  | nil => rfl
  | cons r rs ih =>
    cases h : f r with
    | none => simp [List.filterMap_cons, List.countP_cons, h, ih]
    | some v =>
      by_cases hv : v = k
      · subst hv
        simp [List.filterMap_cons, List.countP_cons, h, ih, List.count_cons]
      · simp [List.filterMap_cons, List.countP_cons, h, ih, List.count_cons, hv,
          Ne.symm hv]

/-- The projected column length plus the number of null cells is the record
count. -/
theorem length_filterMap_add (rs : List Record) (f : Record → Option String) :
    (rs.filterMap f).length + (rs.countP fun r => (f r).isNone) = rs.length := by
  induction rs with
  | nil => rfl
  | cons r rs ih =>
    cases h : f r with
    | none =>
      simp [List.filterMap_cons, h, List.countP_cons]
      omega
    | some v =>
      simp [List.filterMap_cons, h, List.countP_cons]
      omega

/-- A successful aggregation yields exactly the tables of the success
path. -/
theorem aggregate_ok {rs : List Record} {t : Tables} (h : aggregate rs = .ok t) :
    t = mkTables rs := by
  unfold aggregate at h
  split at h
  · exact Except.noConfusion h
  split at h
  · exact Except.noConfusion h
  split at h
  · exact Except.noConfusion h
  split at h
  · exact Except.noConfusion h
  injection h with h2
  exact h2.symm

theorem aggregate_err_root {rs : List Record}
    (h : colPresent rs (fun r => r.root_cause_description) = false) :
    aggregate rs = .error (.keyError "root_cause_description") := by
  unfold aggregate
  rw [if_pos h]

theorem aggregate_err_firm {rs : List Record}
    (h1 : colPresent rs (fun r => r.root_cause_description) = true)
    (h2 : colPresent rs (fun r => r.event_date_initiated) = true)
    (h3 : colPresent rs (fun r => r.recalling_firm) = false) :
    aggregate rs = .error (.keyError "recalling_firm") := by
  unfold aggregate
  rw [if_neg (by simp [h1]), if_neg (by simp [h2]), if_pos h3]

theorem aggregate_err_status {rs : List Record}
    (h1 : colPresent rs (fun r => r.root_cause_description) = true)
    (h2 : colPresent rs (fun r => r.event_date_initiated) = true)
    (h3 : colPresent rs (fun r => r.recalling_firm) = true)
    (h4 : colPresent rs (fun r => r.recall_status) = false) :
    aggregate rs = .error (.keyError "recall_status") := by
  unfold aggregate
  rw [if_neg (by simp [h1]), if_neg (by simp [h2]), if_neg (by simp [h3]), if_pos h4]

theorem mem_sortCountDesc {t : List (String × Nat)} {x : String × Nat} :
    x ∈ sortCountDesc t ↔ x ∈ t :=
  List.mem_insertionSort countGE

theorem table_take_mem {vals : List String} {k : String} {c : Nat} {n : Nat}
    (h : (k, c) ∈ (sortCountDesc (groupSize vals)).take n) :
    k ∈ vals ∧ c = vals.count k :=
  groupSize_mem (mem_sortCountDesc.1 (List.mem_of_mem_take h))

theorem table_sort_mem {vals : List String} {k : String} {c : Nat}
    (h : (k, c) ∈ sortCountDesc (groupSize vals)) :
    k ∈ vals ∧ c = vals.count k :=
  groupSize_mem (mem_sortCountDesc.1 h)

theorem length_pyTake (s : String) (n : Nat) : (pyTake s n).length = min n s.length := by
  unfold pyTake
  show (s.data.take n).length = min n s.length
  rw [List.length_take]
  rfl

/-! The claims. -/

/-- C1: in every table of a successful aggregation, each entry carries a key
that some input record holds in the corresponding field, together with the
exact number of records holding that key (no double-counting, no omission of
a record from a count); for the uncapped month and status tables every key
present in the input also appears. -/
theorem c1_table_counts_exact (rs : List Record) (t : Tables)
    (h : aggregate rs = .ok t) :
    (∀ k c, (k, c) ∈ t.root_cause_counts →
      (∃ r ∈ rs, r.root_cause_description = some k) ∧
      c = fieldCount rs (fun r => r.root_cause_description) k) ∧
    (∀ k c, (k, c) ∈ t.monthly_counts →
      (∃ r ∈ rs, monthOf r = some k) ∧ c = fieldCount rs monthOf k) ∧
    (∀ k c, (k, c) ∈ t.firm_counts →
      (∃ r ∈ rs, r.recalling_firm = some k) ∧
      c = fieldCount rs (fun r => r.recalling_firm) k) ∧
    (∀ k c, (k, c) ∈ t.status_counts →
      (∃ r ∈ rs, r.recall_status = some k) ∧
      c = fieldCount rs (fun r => r.recall_status) k) ∧
    (∀ r ∈ rs, ∀ k, monthOf r = some k →
      (k, fieldCount rs monthOf k) ∈ t.monthly_counts) ∧
    (∀ r ∈ rs, ∀ k, r.recall_status = some k →
      (k, fieldCount rs (fun r => r.recall_status) k) ∈ t.status_counts) := by
  obtain rfl := aggregate_ok h
  simp only [mkTables]
  refine ⟨?_, ?_, ?_, ?_, ?_, ?_⟩
  · intro k c hm
    obtain ⟨hk, hc⟩ := table_take_mem hm
    exact ⟨List.mem_filterMap.1 hk, hc.trans (count_filterMap rs _ k)⟩
  · intro k c hm
    rw [sortKeyAsc_groupSize] at hm
    obtain ⟨hk, hc⟩ := groupSize_mem hm
    exact ⟨List.mem_filterMap.1 hk, hc.trans (count_filterMap rs monthOf k)⟩
  · intro k c hm
    obtain ⟨hk, hc⟩ := table_take_mem hm
    exact ⟨List.mem_filterMap.1 hk, hc.trans (count_filterMap rs _ k)⟩
  · intro k c hm
    obtain ⟨hk, hc⟩ := table_sort_mem hm
    exact ⟨List.mem_filterMap.1 hk, hc.trans (count_filterMap rs _ k)⟩
  · intro r hr k hk
    have hv : k ∈ rs.filterMap monthOf := List.mem_filterMap.2 ⟨r, hr, hk⟩
    rw [sortKeyAsc_groupSize, ← count_filterMap rs monthOf k]
    exact groupSize_complete hv
  · intro r hr k hk
    have hv : k ∈ rs.filterMap fun r => r.recall_status :=
      List.mem_filterMap.2 ⟨r, hr, hk⟩
    rw [← count_filterMap rs _ k]
    exact mem_sortCountDesc.2 (groupSize_complete hv)

/-- C1 witness at a concrete record set: two of three records share the root
cause "Software Error" and its table entry counts exactly 2. -/
theorem c1_table_counts_exact_witness :
    (∃ r ∈ [rA, rB, rA], r.root_cause_description = some "Software Error") ∧
    (2 : Nat) = fieldCount [rA, rB, rA] (fun r => r.root_cause_description)
      "Software Error" :=
  (c1_table_counts_exact [rA, rB, rA] (mkTables [rA, rB, rA]) rfl).1
    "Software Error" 2 (by decide)

/-- C6 counterexample: two records with root causes "B" then "A", one record
each.  First-occurrence order of the keys is B before A, but the table comes
out as A before B, because groupby sorts the group keys ascending before the
count sort runs; the claimed first-occurrence tie order is false. -/
theorem c6_tie_order_counterexample :
    (aggregate [recRootB, recRootA]).map (fun t => t.root_cause_counts) =
      .ok [("A", 1), ("B", 1)] ∧
    [recRootB, recRootA].filterMap (fun r => r.root_cause_description) = ["B", "A"] ∧
    ([("A", 1), ("B", 1)] : List (String × Nat)) ≠ [("B", 1), ("A", 1)] := by
  refine ⟨rfl, rfl, by decide⟩

/-- C6 amended: when counts tie in the root-cause, firm or status table, the
tied keys appear in ascending key order (the group keys are sorted ascending
by groupby and the stable count sort preserves that), not in first-occurrence
order. -/
theorem c6_tie_order_amended (rs : List Record) (t : Tables)
    (h : aggregate rs = .ok t) :
    t.root_cause_counts.Pairwise lexDesc ∧
    t.firm_counts.Pairwise lexDesc ∧
    t.status_counts.Pairwise lexDesc := by
  obtain rfl := aggregate_ok h
  simp only [mkTables]
  exact ⟨(pairwise_lexDesc_sortCountDesc _).sublist (List.take_sublist 10 _),
    (pairwise_lexDesc_sortCountDesc _).sublist (List.take_sublist 10 _),
    pairwise_lexDesc_sortCountDesc _⟩

/-- C6 amended witness at the concrete tied input. -/
theorem c6_tie_order_amended_witness :
    (mkTables [recRootB, recRootA]).root_cause_counts.Pairwise lexDesc :=
  (c6_tie_order_amended [recRootB, recRootA] (mkTables [recRootB, recRootA]) rfl).1

/-- C7: the month table ascends strictly by month key, and the root-cause,
firm and status tables descend by count (countGE a b is the proposition
that the count of b is at most the count of a). -/
theorem c7_sort_order (rs : List Record) (t : Tables)
    (h : aggregate rs = .ok t) :
    t.monthly_counts.Pairwise keyLT ∧
    t.root_cause_counts.Pairwise countGE ∧
    t.firm_counts.Pairwise countGE ∧
    t.status_counts.Pairwise countGE := by
  obtain rfl := aggregate_ok h
  simp only [mkTables]
  refine ⟨?_, ?_, ?_, ?_⟩
  · rw [sortKeyAsc_groupSize]
    exact pairwise_keyLT_groupSize _
  · exact ((pairwise_lexDesc_sortCountDesc _).imp fun h =>
      lexDesc_imp_countGE h).sublist (List.take_sublist 10 _)
  · exact ((pairwise_lexDesc_sortCountDesc _).imp fun h =>
      lexDesc_imp_countGE h).sublist (List.take_sublist 10 _)
  · exact (pairwise_lexDesc_sortCountDesc _).imp fun h => lexDesc_imp_countGE h

/-- C7 witness at a concrete record set. -/
theorem c7_sort_order_witness :
    (mkTables [rA, rB, rA]).monthly_counts.Pairwise keyLT :=
  (c7_sort_order [rA, rB, rA] (mkTables [rA, rB, rA]) rfl).1

/-- C8: the root-cause and firm tables hold at most 10 entries; the status
and month tables hold exactly one entry per distinct non-null value. -/
theorem c8_size_caps (rs : List Record) (t : Tables)
    (h : aggregate rs = .ok t) :
    t.root_cause_counts.length ≤ 10 ∧
    t.firm_counts.length ≤ 10 ∧
    t.status_counts.length = (rs.filterMap fun r => r.recall_status).dedup.length ∧
    t.monthly_counts.length = (rs.filterMap monthOf).dedup.length := by
  obtain rfl := aggregate_ok h
  simp only [mkTables]
  refine ⟨List.length_take_le 10 _, List.length_take_le 10 _, ?_, ?_⟩
  · unfold sortCountDesc
    rw [(List.perm_insertionSort countGE _).length_eq]
    unfold groupSize
    rw [List.length_map]
    unfold gkeys
    exact (List.perm_insertionSort strLeP _).length_eq
  · rw [sortKeyAsc_groupSize]
    unfold groupSize
    rw [List.length_map]
    unfold gkeys
    exact (List.perm_insertionSort strLeP _).length_eq

/-- C8 witness at a concrete record set. -/
theorem c8_size_caps_witness :
    (mkTables [rA, rB, rA]).root_cause_counts.length ≤ 10 :=
  (c8_size_caps [rA, rB, rA] (mkTables [rA, rB, rA]) rfl).1

/-- C10: records whose grouping value is null are dropped from the grouped
table (pandas groupby dropna) but still counted in the total, so the counts
of a table can sum to strictly less than the reported total. -/
theorem c10_null_excluded (rs : List Record) (t : Tables)
    (h : aggregate rs = .ok t) :
    t.total = rs.length ∧
    ((t.status_counts.map fun e => e.2).sum
      + (rs.countP fun r => r.recall_status.isNone) = rs.length) ∧
    ((t.monthly_counts.map fun e => e.2).sum
      + (rs.countP fun r => (monthOf r).isNone) = rs.length) ∧
    ((0 < rs.countP fun r => r.recall_status.isNone) →
      (t.status_counts.map fun e => e.2).sum < t.total) := by
  obtain rfl := aggregate_ok h
  simp only [mkTables]
  have hs : ((sortCountDesc (groupSize (rs.filterMap fun r =>
      r.recall_status))).map fun e => e.2).sum
      = (rs.filterMap fun r => r.recall_status).length := by
    rw [sum_sortCountDesc, sum_groupSize]
  have hm : ((sortKeyAsc (groupSize (rs.filterMap monthOf))).map fun e => e.2).sum
      = (rs.filterMap monthOf).length := by
    rw [sortKeyAsc_groupSize, sum_groupSize]
  refine ⟨trivial, ?_, ?_, ?_⟩
  · rw [hs]
    exact length_filterMap_add rs _
  · rw [hm]
    exact length_filterMap_add rs monthOf
  · intro hpos
    rw [hs]
    have hadd := length_filterMap_add rs fun r => r.recall_status
    omega

/-- C10 witness: one of the two records has no recall_status key, so the
status counts sum to 1 while the total is 2. -/
theorem c10_null_excluded_witness :
    ((mkTables [rA, rC]).status_counts.map fun e => e.2).sum
      < (mkTables [rA, rC]).total :=
  (c10_null_excluded [rA, rC] (mkTables [rA, rC]) rfl).2.2.2 (by decide)

/-- C2 counterexample: on an empty record set the aggregation does not
succeed with empty tables; the frame has no columns at all, so the very
first groupby raises KeyError on root_cause_description. -/
theorem c2_empty_recordset_counterexample :
    aggregate ([] : List Record) = .error (.keyError "root_cause_description") := rfl

/-- C2 amended: when the fetch succeeds with an empty results array, the run
aborts during aggregation with a KeyError on the missing
root_cause_description column; the formatter is never reached and no file
is written. -/
theorem c2_empty_recordset_aborts (fdaKey openaiKey : Option String)
    (resp : FetchResponse) (gen : GenResponse)
    (h1 : credOk fdaKey = true) (h2 : credOk openaiKey = true)
    (h3 : resp.status_code = 200) (h4 : resp.results = some []) :
    runPipeline fdaKey openaiKey resp gen =
      (.error (.keyError "root_cause_description"), [.fdaCall]) := by
  obtain ⟨code, results⟩ := resp
  simp only at h3 h4
  subst h3
  subst h4
  simp [runPipeline, h1, h2]
  rfl

/-- C2 amended witness at concrete credentials and responses. -/
theorem c2_empty_recordset_aborts_witness :
    runPipeline (some "fda-key") (some "openai-key")
      { status_code := 200, results := some [] }
      { ok := true, content := some "report" } =
      (.error (.keyError "root_cause_description"), [.fdaCall]) :=
  c2_empty_recordset_aborts (some "fda-key") (some "openai-key")
    { status_code := 200, results := some [] }
    { ok := true, content := some "report" } rfl rfl rfl rfl

/-- C3 counterexample: a record set whose records all lack the
root_cause_description key.  The projection drops the column, but the
aggregation then fails with KeyError instead of omitting the table. -/
theorem c3_missing_column_counterexample :
    aggregate [recNoRoot] = .error (.keyError "root_cause_description") := rfl

/-- C3 amended: when root_cause_description, recalling_firm or recall_status
is absent from every record, the field is indeed omitted by the column
projection, but the later groupby on that column raises KeyError: the
aggregation aborts instead of producing an output without that table.
The earlier failure points mask the later ones, hence the presence
hypotheses on the preceding columns. -/
theorem c3_missing_column_key_error (rs : List Record) :
    (colPresent rs (fun r => r.root_cause_description) = false →
      aggregate rs = .error (.keyError "root_cause_description")) ∧
    (colPresent rs (fun r => r.root_cause_description) = true →
      colPresent rs (fun r => r.event_date_initiated) = true →
      colPresent rs (fun r => r.recalling_firm) = false →
      aggregate rs = .error (.keyError "recalling_firm")) ∧
    (colPresent rs (fun r => r.root_cause_description) = true →
      colPresent rs (fun r => r.event_date_initiated) = true →
      colPresent rs (fun r => r.recalling_firm) = true →
      colPresent rs (fun r => r.recall_status) = false →
      aggregate rs = .error (.keyError "recall_status")) :=
  ⟨fun h => aggregate_err_root h,
   fun h1 h2 h3 => aggregate_err_firm h1 h2 h3,
   fun h1 h2 h3 h4 => aggregate_err_status h1 h2 h3 h4⟩

/-- C3 amended witness: concrete record sets lacking the firm column and
the status column respectively. -/
theorem c3_missing_column_key_error_witness :
    aggregate [recNoFirm] = .error (.keyError "recalling_firm") ∧
    aggregate [rC] = .error (.keyError "recall_status") :=
  ⟨(c3_missing_column_key_error [recNoFirm]).2.1 rfl rfl rfl,
   (c3_missing_column_key_error [rC]).2.2 rfl rfl rfl rfl⟩

/-- C4 counterexample: rA carries a product description and rB does not, so
the description column exists; the sample line of rB renders as the
float-NaN text "- nan", not as the claimed placeholder "- N/A". -/
theorem c4_nan_counterexample :
    (aggregate [rA, rB]).map (fun t => t.samples) = .ok ["- Widget\n", "- nan\n"] ∧
    ("- nan\n" : String) ≠ "- N/A\n" := by
  refine ⟨rfl, by decide⟩

/-- C4 amended: the truncation law holds as stated for string-valued
descriptions (rendered length exactly 203 when the length exceeds 200,
exactly the original length otherwise), but the placeholder "N/A" appears
only when the description field is absent from every record; when the
column exists and the value of one record is missing, the rendered text is
"nan". -/
theorem c4_truncation_amended (p : Bool) (v : Option String) (s : String) :
    (p = true → v = some s → 200 < s.length →
      (sampleDesc p v).length = 203 ∧ sampleDesc p v = pyTake s 200 ++ "...") ∧
    (p = true → v = some s → s.length ≤ 200 → sampleDesc p v = s) ∧
    (p = false → sampleDesc p v = "N/A") ∧
    (p = true → v = none → sampleDesc p v = "nan") := by
  refine ⟨?_, ?_, ?_, ?_⟩
  · rintro rfl rfl hlen
    have he : sampleDesc true (some s) = pyTake s 200 ++ "..." := by
      simp [sampleDesc, hlen]
    refine ⟨?_, he⟩
    rw [he, String.length_append, length_pyTake, Nat.min_eq_left (Nat.le_of_lt hlen)]
    rfl
  · rintro rfl rfl hle
    simp [sampleDesc, Nat.not_lt.2 hle]
  · rintro rfl
    cases v <;> rfl
  · rintro rfl rfl
    rfl

set_option maxRecDepth 4000 in
/-- C4 amended witness: a 201-character description renders at length 203,
a short one is kept as is, the dropped-column case gives "N/A" and the
null-cell case gives "nan". -/
theorem c4_truncation_amended_witness :
    (sampleDesc true (some sLong)).length = 203 ∧
    sampleDesc true (some "short") = "short" ∧
    sampleDesc false (some "x") = "N/A" ∧
    sampleDesc true none = "nan" :=
  ⟨((c4_truncation_amended true (some sLong) sLong).1 rfl rfl (by decide)).1,
   (c4_truncation_amended true (some "short") "short").2.1 rfl rfl (by decide),
   (c4_truncation_amended false (some "x") "x").2.2.1 rfl,
   (c4_truncation_amended true none "").2.2.2 rfl rfl⟩

/-- C5: with valid credentials, a non-200 fetch aborts the run with
SourceUnavailable right after the FDA call (before aggregation and before
the OpenAI call); a failed generation call or a payload without the
completion content aborts with GenerationFailed after the two network
calls; and a file write event occurs only in a run whose outcome is the
successful report, so no file is produced unless every stage succeeded. -/
theorem c5_no_write_without_success (fdaKey openaiKey : Option String)
    (resp : FetchResponse) (gen : GenResponse)
    (h1 : credOk fdaKey = true) (h2 : credOk openaiKey = true) :
    (resp.status_code ≠ 200 →
      runPipeline fdaKey openaiKey resp gen =
        (.error (.sourceUnavailable resp.status_code), [.fdaCall])) ∧
    (∀ rs t, resp.status_code = 200 → resp.results = some rs →
      aggregate rs = .ok t → gen.ok = false ∨ gen.content = none →
      runPipeline fdaKey openaiKey resp gen =
        (.error .generationFailed, [.fdaCall, .openaiCall])) ∧
    (∀ s, Event.fileWrite s ∈ (runPipeline fdaKey openaiKey resp gen).2 →
      (runPipeline fdaKey openaiKey resp gen).1 = .ok s) := by
  obtain ⟨code, results⟩ := resp
  obtain ⟨gok, gcontent⟩ := gen
  refine ⟨?_, ?_, ?_⟩
  · intro hs
    simp only at hs
    simp [runPipeline, h1, h2, hs]
  · intro rs t hs hr ha hg
    simp only at hs hr ⊢
    subst hs
    subst hr
    rcases hg with hg | hg <;> simp only at hg <;> subst hg
    · simp [runPipeline, h1, h2, ha]
    · cases gok <;> simp [runPipeline, h1, h2, ha]
  · intro s hs
    by_cases hst : code = 200
    case neg => simp [runPipeline, h1, h2, hst] at hs
    case pos =>
      subst hst
      cases results with
      | none => simp [runPipeline, h1, h2] at hs
      | some rs =>
        cases ha : aggregate rs with
        | error e => simp [runPipeline, h1, h2, ha] at hs
        | ok t =>
          cases gok with
          | false => simp [runPipeline, h1, h2, ha] at hs
          | true =>
            cases gcontent with
            | none => simp [runPipeline, h1, h2, ha] at hs
            | some rep =>
              simp [runPipeline, h1, h2, ha] at hs
              subst hs
              simp [runPipeline, h1, h2, ha]

/-- C5 witness: a 500 fetch aborts with SourceUnavailable after only the
FDA call. -/
theorem c5_no_write_without_success_witness :
    runPipeline (some "fda-key") (some "openai-key")
      { status_code := 500, results := none }
      { ok := true, content := some "report" } =
      (.error (.sourceUnavailable 500), [.fdaCall]) :=
  (c5_no_write_without_success (some "fda-key") (some "openai-key")
    { status_code := 500, results := none }
    { ok := true, content := some "report" } rfl rfl).1 (by decide)

/-- C9: an absent or empty FDA or OpenAI key makes the run fail with
MissingCredential and an empty event list: no network call happens. -/
theorem c9_missing_credential (fdaKey openaiKey : Option String)
    (resp : FetchResponse) (gen : GenResponse)
    (h : fdaKey = none ∨ fdaKey = some "" ∨ openaiKey = none ∨ openaiKey = some "") :
    runPipeline fdaKey openaiKey resp gen = (.error .missingCredential, []) := by
  have hc : credOk fdaKey = false ∨ credOk openaiKey = false := by
    rcases h with h | h | h | h <;> subst h
    · exact Or.inl rfl
    · exact Or.inl rfl
    · exact Or.inr rfl
    · exact Or.inr rfl
  unfold runPipeline
  rcases hc with hc | hc
  · rw [if_pos hc]
  · by_cases hf : credOk fdaKey = false
    · rw [if_pos hf]
    · rw [if_neg hf, if_pos hc]

/-- C9 witness: an unset FDA key aborts before any event. -/
theorem c9_missing_credential_witness :
    runPipeline none (some "openai-key")
      { status_code := 200, results := some [] }
      { ok := true, content := some "report" } =
      (.error .missingCredential, []) :=
  c9_missing_credential none (some "openai-key")
    { status_code := 200, results := some [] }
    { ok := true, content := some "report" } (Or.inl rfl)

end AiReporter
